import Mathlib

/-!
Shallow embedding of the roblox-visit-counter serverless handler
(`src/api/visits.js` and `src/api/get-visits.js`).

Modelling conventions:
- Upstream HTTP behaviour is a parameter (`Upstream`): each of the three
  fetch targets either fails (`Except.error msg`, a non-ok status or network
  error thrown by `fetchJSON`) or yields the parsed JSON page.  A page's
  `data` field may be absent (`Option`), matching the `x.data || []` reads.
- JS dynamic field access that can throw a TypeError outside the guarded
  `try` blocks is modelled by `Option` fields: `groupData.role.name` and
  `groupData.group.id` are read outside the inner try/catch, so a missing
  `role`/`group` object aborts the aggregation (the outer catch answers 500).
  The exact TypeError message text is abstracted to fixed strings.
- The module-level `Map` cache is an insertion-ordered association list with
  distinct keys; `Map.set` on a present key overwrites in place, on an absent
  key appends; `Map.keys().next().value` is the head key.
- Instants (`Date.now()`, the ISO timestamp) are naturals; `res.json x` as
  well as `res.status(200).json x` produce status 200.
-/

namespace RobloxVisits

/-! ### Upstream data model -/

/-- One game entry of a games listing; `placeVisits` may be absent. -/
structure Game where
  placeVisits : Option Nat
deriving Repr, DecidableEq

/-- The `role` object of a group membership entry. -/
structure RoleObj where
  name : String
deriving Repr, DecidableEq

/-- The `group` object of a group membership entry. -/
structure GroupObj where
  id : Nat
  name : String
deriving Repr, DecidableEq

/-- One entry of the group-roles listing.  The `role` / `group` objects may
be absent in a malformed upstream response; the handler reads them without a
guard. -/
structure Membership where
  role : Option RoleObj
  group : Option GroupObj
deriving Repr, DecidableEq

/-- Parsed JSON of a games listing response (`{ data: [...] }`). -/
structure GamesPage where
  data : Option (List Game)
deriving Repr, DecidableEq

/-- Parsed JSON of the group-roles response (`{ data: [...] }`). -/
structure GroupsPage where
  data : Option (List Membership)
deriving Repr, DecidableEq

/-- Fixed upstream behaviour for one aggregation run: the outcome of the
personal-games fetch, of the group-memberships fetch, and of the games fetch
for each group id. -/
structure Upstream where
  userGames : Except String GamesPage
  userGroups : Except String GroupsPage
  groupGames : Nat → Except String GamesPage

/-! ### Role classification (`DEVELOPER_ROLES`, `isDeveloperRole`) -/

/-- The fixed role vocabulary (lines 4-8 of both files). -/
def DEVELOPER_ROLES : List String :=
  ["developer", "builder", "scripter", "programmer",
   "lead developer", "co-owner", "owner", "dev",
   "game developer", "lead scripter", "head developer"]

/-- `String.prototype.toLowerCase` on the ASCII role names: lower each char. -/
def jsToLower (s : String) : String := ⟨s.data.map Char.toLower⟩

/-- `String.prototype.includes sub`: some drop of the receiver starts with
`sub`. -/
def jsIncludes (s sub : String) : Bool :=
  (List.range (s.data.length + 1)).any fun i => sub.data.isPrefixOf (s.data.drop i)

/-- `isDeveloperRole` (lines 13-16 / 14-17). -/
def isDeveloperRole (roleName : String) : Bool :=
  let lower := jsToLower roleName
  DEVELOPER_ROLES.any fun role => jsIncludes lower role

/-! ### Result object -/

/-- The `breakdown` object of a success response. -/
structure Breakdown where
  personalVisits : Nat
  groupVisits : Nat
  totalGames : Nat
  personalGames : Nat
  groupGames : Nat
deriving Repr, DecidableEq

/-- The fixed advisory `note` string of the success body. -/
def NOTE : String :=
  "Using placeVisits from games API. For exact universe visits, add Roblox Cloud API key."

/-- The success result object (lines 136-148 of both files); `timestamp`
models `new Date().toISOString()` as the instant it was stamped at. -/
structure Summary where
  success : Bool
  totalVisits : Nat
  breakdown : Breakdown
  note : String
  timestamp : Nat
deriving Repr, DecidableEq

/-- Construction of the `result` object from the personal and group
accumulators (lines 131-148): `totalVisits = personalVisits + groupVisits`,
`totalGames = personalGameCount + groupGameCount`. -/
def mkSummary (personal group : Nat × Nat) (now : Nat) : Summary :=
  { success := true
    totalVisits := personal.1 + group.1
    breakdown :=
      { personalVisits := personal.1
        groupVisits := group.1
        totalGames := personal.2 + group.2
        personalGames := personal.2
        groupGames := group.2 }
    note := NOTE
    timestamp := now }

/-! ### Aggregation -/

/-- `game.placeVisits || 0` (lines 80 and 122). -/
def jsOrZero (v : Option Nat) : Nat := v.getD 0

/-- The `for (const game of games)` accumulation loops (lines 79-83 and
121-125): add each entry's visit counter, count each entry. -/
def processGames (games : List Game) (visits count : Nat) : Nat × Nat :=
  games.foldl (fun acc g => (acc.1 + jsOrZero g.placeVisits, acc.2 + 1)) (visits, count)

/-- Abstracted message of the TypeError thrown by `groupData.role.name` when
`role` is absent (line 102, outside the inner try). -/
def roleUndefinedMsg : String := "TypeError: role is undefined"

/-- Abstracted message of the TypeError thrown by `groupData.group.id` when
`group` is absent (line 108, outside the inner try). -/
def groupUndefinedMsg : String := "TypeError: group is undefined"

/-- The `for (const groupData of groups)` loop (lines 101-129): read
`role.name` (may throw), skip non-developer roles, read `group.id` (may
throw), fetch that group's games inside a try (a failure is logged and the
loop continues), and fold visits/counts. -/
def groupLoop (up : Upstream) (acc : Nat × Nat) : List Membership → Except String (Nat × Nat)
  | [] => .ok acc
  | m :: rest =>
    match m.role with
    | none => .error roleUndefinedMsg
    | some r =>
      if isDeveloperRole r.name then
        match m.group with
        | none => .error groupUndefinedMsg
        | some g =>
          match up.groupGames g.id with
          | .error _ => groupLoop up acc rest
          | .ok page => groupLoop up (processGames (page.data.getD []) acc.1 acc.2) rest
      else groupLoop up acc rest

/-- Step 1 (lines 70-86): personal visits and game count; a fetch failure is
caught and leaves both accumulators at 0. -/
def personalOf (up : Upstream) : Nat × Nat :=
  match up.userGames with
  | .error _ => (0, 0)
  | .ok page => processGames (page.data.getD []) 0 0

/-- Step 2 (lines 88-98): the membership list; a fetch failure is caught and
leaves `groups = []`. -/
def groupsOf (up : Upstream) : List Membership :=
  match up.userGroups with
  | .error _ => []
  | .ok page => page.data.getD []

/-- The whole `try` block body (lines 61-148): personal accumulation, group
accumulation, result construction.  An error escaping the inner try blocks
(a TypeError in the membership loop) is the `Except.error` case. -/
def aggregate (up : Upstream) (now : Nat) : Except String Summary :=
  match groupLoop up (0, 0) (groupsOf up) with
  | .error e => .error e
  | .ok group => .ok (mkSummary (personalOf up) group now)

/-! ### Instrumented aggregation (upstream-call trace)

`aggregateT` is `aggregate` with a ghost trace of the fetches attempted, in
order; `aggregateT_fst` below proves it erases to `aggregate`. -/

/-- One attempted upstream fetch. -/
inductive Call where
  | personalGames : Call
  | groupRoles : Call
  | groupGames : Nat → Call
deriving Repr, DecidableEq

/-- `groupLoop` with the ghost trace: a group-games fetch is recorded exactly
when it is attempted (developer-tier role with a present group object),
whether or not it succeeds. -/
def groupLoopT (up : Upstream) (acc : Nat × Nat) (t : List Call) :
    List Membership → Except String (Nat × Nat) × List Call
  | [] => (.ok acc, t)
  | m :: rest =>
    match m.role with
    | none => (.error roleUndefinedMsg, t)
    | some r =>
      if isDeveloperRole r.name then
        match m.group with
        | none => (.error groupUndefinedMsg, t)
        | some g =>
          match up.groupGames g.id with
          | .error _ => groupLoopT up acc (t ++ [Call.groupGames g.id]) rest
          | .ok page =>
            groupLoopT up (processGames (page.data.getD []) acc.1 acc.2)
              (t ++ [Call.groupGames g.id]) rest
      else groupLoopT up acc t rest

/-- `aggregate` with the ghost trace: the personal-games fetch and the
group-roles fetch are each attempted exactly once, then the membership loop
runs. -/
def aggregateT (up : Upstream) (now : Nat) : Except String Summary × List Call :=
  match groupLoopT up (0, 0) [Call.personalGames, Call.groupRoles] (groupsOf up) with
  | (.error e, t) => (.error e, t)
  | (.ok group, t) => (.ok (mkSummary (personalOf up) group now), t)

/-! ### Derived per-membership quantities (used to state fault isolation) -/

/-- Sum of the visit counters of a games page (missing counters as 0). -/
def sumVisits (games : List Game) : Nat := (games.map fun g => jsOrZero g.placeVisits).sum

/-- A membership the loop traverses without throwing: the `role` object is
present, and when the role is developer-tier the `group` object is present. -/
def memOK (m : Membership) : Bool :=
  match m.role with
  | none => false
  | some r => !(isDeveloperRole r.name) || m.group.isSome

/-- The (visits, games) contribution of one membership under a fixed
upstream behaviour: zero unless it has a developer-tier role, a group object
and a successful games fetch. -/
def memContrib (up : Upstream) (m : Membership) : Nat × Nat :=
  match m.role with
  | none => (0, 0)
  | some r =>
    if isDeveloperRole r.name then
      match m.group with
      | none => (0, 0)
      | some g =>
        match up.groupGames g.id with
        | .error _ => (0, 0)
        | .ok page => (sumVisits (page.data.getD []), (page.data.getD []).length)
    else (0, 0)

/-- Whether this membership's group-games fetch (if any) targets group `g0`. -/
def memTargets (m : Membership) (g0 : Nat) : Bool :=
  match m.group with
  | none => false
  | some g => g.id == g0

/-- The group-games call a membership gives rise to, if any. -/
def memCall (m : Membership) : Option Call :=
  match m.role with
  | none => none
  | some r => if isDeveloperRole r.name then m.group.map (fun g => Call.groupGames g.id) else none

/-- The number of developer-tier memberships in a listing. -/
def devCount (ms : List Membership) : Nat :=
  (ms.filter fun m =>
    match m.role with
    | none => false
    | some r => isDeveloperRole r.name).length

/-- Discriminates the personal-games call in a trace. -/
def isPersonalCall : Call → Bool
  | .personalGames => true
  | _ => false

/-- Discriminates the group-roles call in a trace. -/
def isRolesCall : Call → Bool
  | .groupRoles => true
  | _ => false

/-! ### Upstream failure injections (used to state fault isolation) -/

/-- Make the personal-games fetch fail, leaving everything else unchanged. -/
def failPersonal (up : Upstream) : Upstream :=
  { up with userGames := .error "HTTP 500" }

/-- Make the group-memberships fetch fail, leaving everything else unchanged. -/
def failGroupsFetch (up : Upstream) : Upstream :=
  { up with userGroups := .error "HTTP 500" }

/-- Make the games fetch of the one group `g0` fail, leaving everything else
unchanged. -/
def failOneGroup (up : Upstream) (g0 : Nat) : Upstream :=
  { up with groupGames := fun g => if g = g0 then .error "HTTP 500" else up.groupGames g }

/-! ### The module-level cache -/

/-- One stored cache value (lines 151-154): the result object and the
`Date.now()` instant it was stored at. -/
structure CacheEntry where
  data : Summary
  timestamp : Nat
deriving Repr, DecidableEq

/-- The `Map` in insertion order, keys distinct in every reachable state. -/
abbrev Cache := List (String × CacheEntry)

/-- `Map.get`. -/
def cacheGet (c : Cache) (k : String) : Option CacheEntry :=
  (c.find? fun p => p.1 == k).map Prod.snd

/-- `Map.set`: overwrite in place when the key is present, append otherwise. -/
def cacheSet (c : Cache) (k : String) (v : CacheEntry) : Cache :=
  if c.any fun p => p.1 == k then
    c.map fun p => if p.1 == k then (k, v) else p
  else c ++ [(k, v)]

/-- The key list, in insertion order. -/
def cacheKeys (c : Cache) : List String := c.map Prod.fst

/-- `Map.keys().next().value`: the first-inserted key. -/
def cacheFirstKey (c : Cache) : Option String := c.head?.map Prod.fst

/-- `Map.delete k`. -/
def cacheDelete (c : Cache) (k : String) : Cache :=
  c.eraseP fun p => p.1 == k

/-- The opportunistic cleanup (lines 156-160): if the size exceeds 100,
delete the first-inserted key. -/
def cacheEvict (c : Cache) : Cache :=
  if c.length > 100 then
    match cacheFirstKey c with
    | none => c
    | some k => cacheDelete c k
  else c

/-- The whole cache write of the success path (lines 150-160): `Map.set`
followed by the size-triggered cleanup. -/
def cacheStore (c : Cache) (k : String) (e : CacheEntry) : Cache :=
  cacheEvict (cacheSet c k e)

/-- `CACHE_DURATION = 5 * 60 * 1000`. -/
def CACHE_DURATION : Nat := 5 * 60 * 1000

/-! ### The request handler -/

/-- The request: its method and the `userId` query parameter. -/
structure Req where
  method : String
  userId : Option String
deriving Repr, DecidableEq

/-- A response body. -/
inductive Body where
  | empty : Body
  | errMissing : Body
  | errInvalid : Body
  | payload : Summary → Body
  | fatal : String → String → Body
deriving Repr, DecidableEq

/-- A response: HTTP status and body. -/
structure Response where
  status : Nat
  body : Body
deriving Repr, DecidableEq

/-- The `/^\d+$/` test: nonempty and all characters decimal digits. -/
def isNumericUserId (s : String) : Bool :=
  s.data.length > 0 && s.data.all Char.isDigit

/-- The cache-miss tail of `handler` in `visits.js` (lines 61-172): run the
aggregation; on success store the result and answer 200, on a fatal error
answer 500 leaving the cache untouched. -/
def runAggregation (uid cacheKey : String) (c : Cache) (now : Nat) (up : Upstream) :
    Response × Cache :=
  match aggregate up now with
  | .error msg => ({ status := 500, body := .fatal msg uid }, c)
  | .ok result =>
    ({ status := 200, body := .payload result },
     cacheStore c cacheKey { data := result, timestamp := now })

/-- The `visits.js` handler (lines 30-173): OPTIONS preflight, `userId`
validation, cache lookup with the 5-minute freshness test, then the
aggregation path. -/
def handler (req : Req) (c : Cache) (now : Nat) (up : Upstream) : Response × Cache :=
  if req.method == "OPTIONS" then ({ status := 200, body := .empty }, c)
  else
    match req.userId with
    | none => ({ status := 400, body := .errMissing }, c)
    | some uid =>
      if uid == "" then ({ status := 400, body := .errMissing }, c)
      else if !(isNumericUserId uid) then ({ status := 400, body := .errInvalid }, c)
      else
        let cacheKey := "visits_" ++ uid
        match cacheGet c cacheKey with
        | some cached =>
          if now - cached.timestamp < CACHE_DURATION then
            ({ status := 200, body := .payload cached.data }, c)
          else runAggregation uid cacheKey c now up
        | none => runAggregation uid cacheKey c now up

/-- `res.json body` of `get-visits.js`: status defaults to 200. -/
def resJson (b : Body) : Response := { status := 200, body := b }

/-- The cache-miss tail of the `get-visits.js` handler (lines 60-172); it
answers the success case through `res.json` instead of `res.status(200)`. -/
def runAggregationGV (uid cacheKey : String) (c : Cache) (now : Nat) (up : Upstream) :
    Response × Cache :=
  match aggregate up now with
  | .error msg => ({ status := 500, body := .fatal msg uid }, c)
  | .ok result =>
    (resJson (.payload result),
     cacheStore c cacheKey { data := result, timestamp := now })

/-- The `get-visits.js` handler (lines 27-173): identical to `visits.js`
except that the cache-hit and success responses go through `res.json`. -/
def handlerGetVisits (req : Req) (c : Cache) (now : Nat) (up : Upstream) : Response × Cache :=
  if req.method == "OPTIONS" then ({ status := 200, body := .empty }, c)
  else
    match req.userId with
    | none => ({ status := 400, body := .errMissing }, c)
    | some uid =>
      if uid == "" then ({ status := 400, body := .errMissing }, c)
      else if !(isNumericUserId uid) then ({ status := 400, body := .errInvalid }, c)
      else
        let cacheKey := "visits_" ++ uid
        match cacheGet c cacheKey with
        | some cached =>
          if now - cached.timestamp < CACHE_DURATION then
            (resJson (.payload cached.data), c)
          else runAggregationGV uid cacheKey c now up
        | none => runAggregationGV uid cacheKey c now up

/-! ### Specification-side substring predicate (for the role-classification
claim): `sub` occurs contiguously in `hay`. -/

def ContainsSub (hay sub : List Char) : Prop :=
  ∃ l r, hay = l ++ sub ++ r

/-- Both per-membership totals of a run, as list sums. -/
def groupTotals (up : Upstream) : Nat × Nat :=
  (((groupsOf up).map fun m => (memContrib up m).1).sum,
   ((groupsOf up).map fun m => (memContrib up m).2).sum)

/-! ### Concrete fixtures (used by the witnesses) -/

/-- A one-entry personal games listing with 10 visits. -/
def gamesP : List Game := [{ placeVisits := some 10 }]

/-- Its page. -/
def pageP : GamesPage := { data := some gamesP }

/-- A membership with a developer-tier role in group 5. -/
def mDev : Membership :=
  { role := some { name := "Owner" }, group := some { id := 5, name := "G" } }

/-- A membership with a non-developer role. -/
def mMod : Membership :=
  { role := some { name := "Moderator" }, group := some { id := 9, name := "H" } }

/-- A malformed membership entry: no `role` object. -/
def mBad : Membership := { role := none, group := none }

/-- A fully successful upstream behaviour: one personal game (10 visits), one
developer-tier membership in group 5 whose listing has games with 7 and
missing visit counters. -/
def upEx : Upstream :=
  { userGames := .ok pageP
    userGroups := .ok { data := some [mDev] }
    groupGames := fun g =>
      if g = 5 then .ok { data := some [{ placeVisits := some 7 }, { placeVisits := none }] }
      else .error "HTTP 404" }

/-- The summary `upEx` aggregates to at instant 0. -/
def sEx : Summary := mkSummary (10, 1) (7, 2) 0

/-- An upstream behaviour whose membership listing contains a malformed
entry, so the aggregation throws outside the guarded blocks. -/
def upFatal : Upstream :=
  { userGames := .error "HTTP 500"
    userGroups := .ok { data := some [mBad] }
    groupGames := fun _ => .error "HTTP 500" }

/-- A stored cache entry for the witnesses. -/
def entryEx : CacheEntry := { data := sEx, timestamp := 1000 }

/-- A one-entry cache holding `entryEx` under user 7's key. -/
def cacheEx : Cache := [("visits_7", entryEx)]

/-- A 100-entry cache with distinct keys. -/
def bigCache : Cache := (List.range 100).map fun i => (toString i, entryEx)

/-! ## Lemmas about the aggregation loops -/

/-- The game accumulation loop adds the visit sum and the entry count. -/
theorem processGames_eq (games : List Game) :
    ∀ v c, processGames games v c = (v + sumVisits games, c + games.length) := by
  induction games with
  | nil => intro v c; simp [processGames, sumVisits]
  | cons g gs ih =>
    intro v c
    have h1 : processGames (g :: gs) v c = processGames gs (v + jsOrZero g.placeVisits) (c + 1) :=
      rfl
    rw [h1, ih]
    simp only [sumVisits, List.map_cons, List.sum_cons, List.length_cons, Prod.mk.injEq]
    constructor <;> omega

/-- The instrumented membership loop erases to the plain one. -/
theorem groupLoopT_fst (up : Upstream) :
    ∀ (ms : List Membership) (acc : Nat × Nat) (t : List Call),
      (groupLoopT up acc t ms).1 = groupLoop up acc ms := by
  intro ms
  induction ms with
  | nil => intro acc t; rfl
  | cons m rest ih =>
    intro acc t
    cases hr : m.role with
    | none => simp [groupLoopT, groupLoop, hr]
    | some r =>
      cases hd : isDeveloperRole r.name with
      | false => simp [groupLoopT, groupLoop, hr, hd, ih]
      | true =>
        cases hg : m.group with
        | none => simp [groupLoopT, groupLoop, hr, hd, hg]
        | some g =>
          cases hf : up.groupGames g.id with
          | error e => simp [groupLoopT, groupLoop, hr, hd, hg, hf, ih]
          | ok page => simp [groupLoopT, groupLoop, hr, hd, hg, hf, ih]

/-- On a listing of well-formed memberships the instrumented loop succeeds,
adding each membership's contribution and recording exactly its attempted
group-games calls, in order. -/
theorem groupLoopT_ok (up : Upstream) :
    ∀ (ms : List Membership) (a b : Nat) (t : List Call),
      (∀ m ∈ ms, memOK m = true) →
      groupLoopT up (a, b) t ms =
        (.ok (a + (ms.map fun m => (memContrib up m).1).sum,
              b + (ms.map fun m => (memContrib up m).2).sum),
         t ++ ms.filterMap memCall) := by
  intro ms
  induction ms with
  | nil => intro a b t h; simp [groupLoopT]
  | cons m rest ih =>
    intro a b t h
    have hm : memOK m = true := h m (by simp)
    have hrest : ∀ x ∈ rest, memOK x = true := fun x hx => h x (by simp [hx])
    cases hr : m.role with
    | none => simp [memOK, hr] at hm
    | some r =>
      cases hd : isDeveloperRole r.name with
      | false =>
        have hstep : groupLoopT up (a, b) t (m :: rest) = groupLoopT up (a, b) t rest := by
          simp [groupLoopT, hr, hd]
        rw [hstep, ih a b t hrest]
        simp [memContrib, memCall, hr, hd, List.filterMap_cons]
      | true =>
        cases hg : m.group with
        | none => simp [memOK, hr, hd, hg] at hm
        | some g =>
          cases hf : up.groupGames g.id with
          | error e =>
            have hstep : groupLoopT up (a, b) t (m :: rest) =
                groupLoopT up (a, b) (t ++ [Call.groupGames g.id]) rest := by
              simp [groupLoopT, hr, hd, hg, hf]
            rw [hstep, ih a b (t ++ [Call.groupGames g.id]) hrest]
            simp [memContrib, memCall, hr, hd, hg, hf, List.filterMap_cons]
          | ok page =>
            have hstep : groupLoopT up (a, b) t (m :: rest) =
                groupLoopT up (processGames (page.data.getD []) a b)
                  (t ++ [Call.groupGames g.id]) rest := by
              simp [groupLoopT, hr, hd, hg, hf]
            rw [hstep, processGames_eq]
            rw [ih (a + sumVisits (page.data.getD [])) (b + (page.data.getD []).length)
              (t ++ [Call.groupGames g.id]) hrest]
            simp only [memContrib, memCall, hr, hd, hg, hf, List.filterMap_cons,
              List.map_cons, List.sum_cons, if_true, List.append_assoc, List.singleton_append,
              Prod.mk.injEq, Except.ok.injEq]
            refine ⟨⟨by omega, by omega⟩, rfl⟩

/-- Plain-loop version of `groupLoopT_ok`. -/
theorem groupLoop_ok (up : Upstream) (ms : List Membership) (a b : Nat)
    (h : ∀ m ∈ ms, memOK m = true) :
    groupLoop up (a, b) ms =
      .ok (a + (ms.map fun m => (memContrib up m).1).sum,
           b + (ms.map fun m => (memContrib up m).2).sum) := by
  rw [← groupLoopT_fst up ms (a, b) [], groupLoopT_ok up ms a b [] h]

/-- If the membership loop did not throw, every traversed membership was
well-formed. -/
theorem groupLoop_ok_inv (up : Upstream) :
    ∀ (ms : List Membership) (acc : Nat × Nat) (out : Nat × Nat),
      groupLoop up acc ms = .ok out → ∀ m ∈ ms, memOK m = true := by
  intro ms
  induction ms with
  | nil => intro acc out h m hm; simp at hm
  | cons m0 rest ih =>
    intro acc out h m hm
    cases hr : m0.role with
    | none => rw [groupLoop, hr] at h; simp at h
    | some r =>
      cases hd : isDeveloperRole r.name with
      | false =>
        rw [groupLoop, hr] at h
        simp only [hd, Bool.false_eq_true, if_false] at h
        rcases List.mem_cons.mp hm with hm0 | hmr
        · subst hm0; simp [memOK, hr, hd]
        · exact ih acc out h m hmr
      | true =>
        cases hg : m0.group with
        | none => rw [groupLoop, hr] at h; simp [hd, hg] at h
        | some g =>
          rw [groupLoop, hr] at h
          simp only [hd, if_true, hg] at h
          rcases List.mem_cons.mp hm with hm0 | hmr
          · subst hm0; simp [memOK, hr, hd, hg]
          · cases hf : up.groupGames g.id with
            | error e => rw [hf] at h; exact ih acc out h m hmr
            | ok page => rw [hf] at h; exact ih _ out h m hmr

/-- The instrumented aggregation erases to the plain one. -/
theorem aggregateT_fst (up : Upstream) (now : Nat) :
    (aggregateT up now).1 = aggregate up now := by
  unfold aggregateT aggregate
  rw [← groupLoopT_fst up (groupsOf up) (0, 0) [Call.personalGames, Call.groupRoles]]
  cases hT : groupLoopT up (0, 0) [Call.personalGames, Call.groupRoles] (groupsOf up) with
  | mk e t => cases e <;> rfl

/-- A successful run is exactly a run over well-formed memberships, and its
summary is determined by the per-membership contributions. -/
theorem aggregate_ok_elim (up : Upstream) (now : Nat) (s : Summary)
    (h : aggregate up now = .ok s) :
    (∀ m ∈ groupsOf up, memOK m = true) ∧
      s = mkSummary (personalOf up) (groupTotals up) now := by
  unfold aggregate at h
  cases hg : groupLoop up (0, 0) (groupsOf up) with
  | error e => rw [hg] at h; simp at h
  | ok g =>
    rw [hg] at h
    simp only [Except.ok.injEq] at h
    have hOK := groupLoop_ok_inv up (groupsOf up) (0, 0) g hg
    refine ⟨hOK, ?_⟩
    have hg2 := groupLoop_ok up (groupsOf up) 0 0 hOK
    rw [hg] at hg2
    simp only [Except.ok.injEq, Nat.zero_add] at hg2
    rw [← h, hg2]
    simp [groupTotals]

/-- Well-formed memberships make the aggregation succeed with the canonical
summary. -/
theorem aggregate_ok_intro (up : Upstream) (now : Nat)
    (h : ∀ m ∈ groupsOf up, memOK m = true) :
    aggregate up now = .ok (mkSummary (personalOf up) (groupTotals up) now) := by
  unfold aggregate
  rw [groupLoop_ok up (groupsOf up) 0 0 h]
  simp [groupTotals]

/-! ## Lemmas about the failure injections -/

theorem groupsOf_failPersonal (up : Upstream) : groupsOf (failPersonal up) = groupsOf up := rfl

theorem personalOf_failPersonal (up : Upstream) : personalOf (failPersonal up) = (0, 0) := rfl

theorem groupTotals_failPersonal (up : Upstream) :
    groupTotals (failPersonal up) = groupTotals up := rfl

theorem groupTotals_failGroups (up : Upstream) :
    groupTotals (failGroupsFetch up) = (0, 0) := rfl

theorem personalOf_failGroups (up : Upstream) :
    personalOf (failGroupsFetch up) = personalOf up := rfl

theorem groupsOf_failGroups (up : Upstream) : groupsOf (failGroupsFetch up) = [] := rfl

theorem groupsOf_failOne (up : Upstream) (g0 : Nat) :
    groupsOf (failOneGroup up g0) = groupsOf up := rfl

theorem personalOf_failOne (up : Upstream) (g0 : Nat) :
    personalOf (failOneGroup up g0) = personalOf up := rfl

/-- Failing one group's games fetch zeroes exactly the contributions that
target that group and leaves every other membership's contribution alone. -/
theorem memContrib_failOne (up : Upstream) (g0 : Nat) (m : Membership) :
    memContrib (failOneGroup up g0) m = if memTargets m g0 then (0, 0) else memContrib up m := by
  cases hr : m.role with
  | none => cases hb : memTargets m g0 <;> simp [memContrib, hr, hb]
  | some r =>
    cases hd : isDeveloperRole r.name with
    | false => cases hb : memTargets m g0 <;> simp [memContrib, hr, hd, hb]
    | true =>
      cases hg : m.group with
      | none =>
        have hb : memTargets m g0 = false := by simp [memTargets, hg]
        simp [memContrib, hr, hd, hg, hb]
      | some g =>
        by_cases hid : g.id = g0
        · have hb : memTargets m g0 = true := by simp [memTargets, hg, hid]
          simp [memContrib, hr, hd, hg, hb, failOneGroup, hid]
        · have hb : memTargets m g0 = false := by simp [memTargets, hg, hid]
          cases hf : up.groupGames g.id <;>
            simp [memContrib, hr, hd, hg, hb, failOneGroup, hid, hf]

/-! ## Lemmas about the handler paths -/

/-- A valid, uncached `userId` reaches the aggregation path. -/
theorem handler_valid_miss (uid : String) (c : Cache) (now : Nat) (up : Upstream)
    (hnum : isNumericUserId uid = true) (hmiss : cacheGet c ("visits_" ++ uid) = none) :
    handler { method := "GET", userId := some uid } c now up =
      runAggregation uid ("visits_" ++ uid) c now up := by
  have hne : uid ≠ "" := by
    intro h0; subst h0; simp [isNumericUserId] at hnum
  have hne2 : (uid == "") = false := beq_eq_false_iff_ne.mpr hne
  simp [handler, hne2, hnum, hmiss]

/-- A valid `userId` with a fresh cached entry is answered from the cache,
without consulting the upstream behaviour and without touching the cache. -/
theorem handler_valid_hit (uid : String) (c : Cache) (now : Nat) (up : Upstream)
    (e : CacheEntry) (hnum : isNumericUserId uid = true)
    (hget : cacheGet c ("visits_" ++ uid) = some e)
    (hfresh : now - e.timestamp < CACHE_DURATION) :
    handler { method := "GET", userId := some uid } c now up =
      ({ status := 200, body := .payload e.data }, c) := by
  have hne : uid ≠ "" := by
    intro h0; subst h0; simp [isNumericUserId] at hnum
  have hne2 : (uid == "") = false := beq_eq_false_iff_ne.mpr hne
  simp [handler, hne2, hnum, hget, hfresh]

/-- A valid `userId` with a stale cached entry reaches the aggregation path. -/
theorem handler_valid_stale (uid : String) (c : Cache) (now : Nat) (up : Upstream)
    (e : CacheEntry) (hnum : isNumericUserId uid = true)
    (hget : cacheGet c ("visits_" ++ uid) = some e)
    (hstale : ¬ now - e.timestamp < CACHE_DURATION) :
    handler { method := "GET", userId := some uid } c now up =
      runAggregation uid ("visits_" ++ uid) c now up := by
  have hne : uid ≠ "" := by
    intro h0; subst h0; simp [isNumericUserId] at hnum
  have hne2 : (uid == "") = false := beq_eq_false_iff_ne.mpr hne
  simp [handler, hne2, hnum, hget, hstale]

/-! ## Claims -/

/-- C1: in every success response produced by a full aggregation run,
`totalVisits = personalVisits + groupVisits` and
`totalGames = personalGames + groupGames`, for every upstream behaviour. -/
theorem C1_totals_invariant (up : Upstream) (now : Nat) (s : Summary)
    (h : aggregate up now = .ok s) :
    s.totalVisits = s.breakdown.personalVisits + s.breakdown.groupVisits ∧
      s.breakdown.totalGames = s.breakdown.personalGames + s.breakdown.groupGames := by
  obtain ⟨-, hs⟩ := aggregate_ok_elim up now s h
  subst hs
  simp [mkSummary]

/-- Witness for C1 at a concrete upstream behaviour. -/
theorem C1_totals_invariant_witness :
    sEx.totalVisits = sEx.breakdown.personalVisits + sEx.breakdown.groupVisits ∧
      sEx.breakdown.totalGames = sEx.breakdown.personalGames + sEx.breakdown.groupGames :=
  C1_totals_invariant upEx 0 sEx rfl

/-- C2: each aggregation step is independently fault-tolerant.  Starting
from any run that succeeds: failing the personal-games fetch zeroes only the
personal branch; failing the memberships fetch zeroes only the group branch;
failing a single group's games fetch zeroes only that group's contributions;
and the handler still answers HTTP 200 on the remaining partial data. -/
theorem C2_fault_isolation (up : Upstream) (now : Nat) (s : Summary)
    (h : aggregate up now = .ok s) :
    (∃ s1, aggregate (failPersonal up) now = .ok s1 ∧
       s1.breakdown.personalVisits = 0 ∧ s1.breakdown.personalGames = 0 ∧
       s1.breakdown.groupVisits = s.breakdown.groupVisits ∧
       s1.breakdown.groupGames = s.breakdown.groupGames) ∧
    (∃ s2, aggregate (failGroupsFetch up) now = .ok s2 ∧
       s2.breakdown.groupVisits = 0 ∧ s2.breakdown.groupGames = 0 ∧
       s2.breakdown.personalVisits = s.breakdown.personalVisits ∧
       s2.breakdown.personalGames = s.breakdown.personalGames) ∧
    (∀ g0, ∃ s3, aggregate (failOneGroup up g0) now = .ok s3 ∧
       s3.breakdown.personalVisits = s.breakdown.personalVisits ∧
       s3.breakdown.personalGames = s.breakdown.personalGames ∧
       s3.breakdown.groupVisits =
         ((groupsOf up).map fun m => if memTargets m g0 then 0 else (memContrib up m).1).sum ∧
       s3.breakdown.groupGames =
         ((groupsOf up).map fun m => if memTargets m g0 then 0 else (memContrib up m).2).sum) ∧
    (∀ uid, isNumericUserId uid = true →
       (handler { method := "GET", userId := some uid } [] now (failPersonal up)).1.status
           = 200 ∧
       (handler { method := "GET", userId := some uid } [] now (failGroupsFetch up)).1.status
           = 200 ∧
       ∀ g0, (handler { method := "GET", userId := some uid } [] now
           (failOneGroup up g0)).1.status = 200) := by
  obtain ⟨hOK, hs⟩ := aggregate_ok_elim up now s h
  subst hs
  have hOK1 : ∀ m ∈ groupsOf (failPersonal up), memOK m = true := by
    rw [groupsOf_failPersonal]; exact hOK
  have h1 := aggregate_ok_intro (failPersonal up) now hOK1
  refine ⟨⟨_, h1, ?_⟩, ⟨_, aggregate_ok_intro (failGroupsFetch up) now (by simp [groupsOf_failGroups]), ?_⟩, ?_, ?_⟩
  · rw [personalOf_failPersonal, groupTotals_failPersonal]
    simp [mkSummary]
  · rw [personalOf_failGroups, groupTotals_failGroups]
    simp [mkSummary]
  · intro g0
    have hOK3 : ∀ m ∈ groupsOf (failOneGroup up g0), memOK m = true := by
      rw [groupsOf_failOne]; exact hOK
    refine ⟨_, aggregate_ok_intro (failOneGroup up g0) now hOK3, ?_⟩
    rw [personalOf_failOne]
    have hmap1 : ((groupsOf (failOneGroup up g0)).map fun m => (memContrib (failOneGroup up g0) m).1)
        = (groupsOf up).map fun m => if memTargets m g0 then 0 else (memContrib up m).1 := by
      rw [groupsOf_failOne]
      refine List.map_congr_left fun m _ => ?_
      rw [memContrib_failOne]
      cases hb : memTargets m g0 <;> simp [hb]
    have hmap2 : ((groupsOf (failOneGroup up g0)).map fun m => (memContrib (failOneGroup up g0) m).2)
        = (groupsOf up).map fun m => if memTargets m g0 then 0 else (memContrib up m).2 := by
      rw [groupsOf_failOne]
      refine List.map_congr_left fun m _ => ?_
      rw [memContrib_failOne]
      cases hb : memTargets m g0 <;> simp [hb]
    simp [mkSummary, groupTotals, hmap1, hmap2]
  · intro uid hnum
    refine ⟨?_, ?_, ?_⟩
    · rw [handler_valid_miss uid [] now (failPersonal up) hnum rfl]
      simp [runAggregation, h1]
    · rw [handler_valid_miss uid [] now (failGroupsFetch up) hnum rfl]
      simp [runAggregation,
        aggregate_ok_intro (failGroupsFetch up) now (by simp [groupsOf_failGroups])]
    · intro g0
      have hOK3 : ∀ m ∈ groupsOf (failOneGroup up g0), memOK m = true := by
        rw [groupsOf_failOne]; exact hOK
      rw [handler_valid_miss uid [] now (failOneGroup up g0) hnum rfl]
      simp [runAggregation, aggregate_ok_intro (failOneGroup up g0) now hOK3]

/-- Witness for C2 at a concrete upstream behaviour and user id. -/
theorem C2_fault_isolation_witness :
    (handler { method := "GET", userId := some "7" } [] 0 (failPersonal upEx)).1.status = 200 :=
  ((C2_fault_isolation upEx 0 sEx rfl).2.2.2 "7" rfl).1

/-- C3: a cached entry younger than 300000 ms is returned as stored — same
breakdown, same totalVisits, same timestamp, cache untouched, upstream never
consulted (the answer does not depend on `up`); an entry at least 300000 ms
old misses and the aggregation path runs. -/
theorem C3_cache_freshness (uid : String) (c : Cache) (now : Nat) (up : Upstream)
    (e : CacheEntry) (hnum : isNumericUserId uid = true)
    (hget : cacheGet c ("visits_" ++ uid) = some e) :
    (now - e.timestamp < CACHE_DURATION →
       handler { method := "GET", userId := some uid } c now up =
         ({ status := 200, body := .payload e.data }, c)) ∧
    (¬ now - e.timestamp < CACHE_DURATION →
       handler { method := "GET", userId := some uid } c now up =
         runAggregation uid ("visits_" ++ uid) c now up) :=
  ⟨fun hfresh => handler_valid_hit uid c now up e hnum hget hfresh,
   fun hstale => handler_valid_stale uid c now up e hnum hget hstale⟩

/-- Witness for C3: a fresh hit answered from the cache even though every
upstream fetch would fail. -/
theorem C3_cache_freshness_witness :
    handler { method := "GET", userId := some "7" } cacheEx 2000 upFatal =
      ({ status := 200, body := .payload entryEx.data }, cacheEx) :=
  (C3_cache_freshness "7" cacheEx 2000 upFatal entryEx rfl rfl).1 (by decide)

/-- `Map.set` on an absent key appends. -/
theorem cacheSet_of_not_mem (c : Cache) (k : String) (e : CacheEntry)
    (h : k ∉ cacheKeys c) : cacheSet c k e = c ++ [(k, e)] := by
  have hany : (c.any fun p => p.1 == k) = false := by
    rw [List.any_eq_false]
    intro p hp
    simp only [beq_iff_eq]
    intro hk
    exact h (hk ▸ List.mem_map_of_mem Prod.fst hp)
  simp [cacheSet, hany]

/-- `Map.set` on a present key overwrites in place. -/
theorem cacheSet_of_mem (c : Cache) (k : String) (e : CacheEntry)
    (h : k ∈ cacheKeys c) : cacheSet c k e = c.map fun p => if p.1 == k then (k, e) else p := by
  have hany : (c.any fun p => p.1 == k) = true := by
    rw [List.any_eq_true]
    obtain ⟨p, hp, hk⟩ := List.mem_map.mp h
    exact ⟨p, hp, by simp [hk]⟩
  simp [cacheSet, hany]

/-- C4: writing a 101st distinct key evicts exactly the first-inserted entry
(FIFO), leaving exactly 100; writing a new key below capacity evicts
nothing; overwriting a present key never evicts and keeps the size. -/
theorem C4_fifo_eviction (c : Cache) (k : String) (e : CacheEntry)
    (hnodup : (cacheKeys c).Nodup) :
    (c.length = 100 → k ∉ cacheKeys c →
       cacheStore c k e = c.tail ++ [(k, e)] ∧ (cacheStore c k e).length = 100) ∧
    (c.length < 100 → k ∉ cacheKeys c →
       cacheStore c k e = c ++ [(k, e)] ∧ (cacheStore c k e).length = c.length + 1) ∧
    (k ∈ cacheKeys c → c.length ≤ 100 →
       cacheStore c k e = cacheSet c k e ∧ (cacheStore c k e).length = c.length) := by
  refine ⟨?_, ?_, ?_⟩
  · intro hlen hk
    have hset : cacheSet c k e = c ++ [(k, e)] := cacheSet_of_not_mem c k e hk
    obtain ⟨p, rest, rfl⟩ : ∃ p rest, c = p :: rest := by
      cases c with
      | nil => simp at hlen
      | cons p rest => exact ⟨p, rest, rfl⟩
    have hlen2 : rest.length = 99 := by simpa using hlen
    have hres : cacheStore (p :: rest) k e = rest ++ [(k, e)] := by
      rw [cacheStore, hset]
      simp only [List.cons_append]
      have hgt : (p :: (rest ++ [(k, e)])).length > 100 := by simp [hlen2]
      rw [cacheEvict, if_pos hgt]
      have hfk : cacheFirstKey (p :: (rest ++ [(k, e)])) = some p.1 := rfl
      rw [hfk]
      show cacheDelete (p :: (rest ++ [(k, e)])) p.1 = rest ++ [(k, e)]
      unfold cacheDelete
      exact List.eraseP_cons_of_pos (by simp)
    exact ⟨hres, by rw [hres]; simp [hlen2]⟩
  · intro hlt hk
    have hset : cacheSet c k e = c ++ [(k, e)] := cacheSet_of_not_mem c k e hk
    have hle : ¬ (c ++ [(k, e)]).length > 100 := by simp; omega
    have hres : cacheStore c k e = c ++ [(k, e)] := by
      rw [cacheStore, hset, cacheEvict, if_neg hle]
    exact ⟨hres, by rw [hres]; simp⟩
  · intro hk hle
    have hset : cacheSet c k e = c.map fun p => if p.1 == k then (k, e) else p :=
      cacheSet_of_mem c k e hk
    have hlen3 : (cacheSet c k e).length = c.length := by rw [hset]; simp
    have hno : ¬ (cacheSet c k e).length > 100 := by rw [hlen3]; omega
    have hres : cacheStore c k e = cacheSet c k e := by
      rw [cacheStore, cacheEvict, if_neg hno]
    exact ⟨hres, by rw [hres]; exact hlen3⟩

/-- Witness for C4: inserting a 101st distinct key into a full 100-entry
cache drops exactly the first-inserted entry. -/
theorem C4_fifo_eviction_witness :
    cacheStore bigCache "x" entryEx = bigCache.tail ++ [("x", entryEx)] ∧
      (cacheStore bigCache "x" entryEx).length = 100 :=
  (C4_fifo_eviction bigCache "x" entryEx (by decide)).1 (by decide) (by decide)

/-- C5: a missing, empty or non-numeric `userId` is answered 400 with an
error body, with the cache untouched and no upstream call (the answer does
not depend on `up`); a nonempty all-digit `userId` is never answered 400. -/
theorem C5_validation (c : Cache) (now : Nat) (up : Upstream) :
    handler { method := "GET", userId := none } c now up =
      ({ status := 400, body := .errMissing }, c) ∧
    handler { method := "GET", userId := some "" } c now up =
      ({ status := 400, body := .errMissing }, c) ∧
    (∀ uid, uid ≠ "" → isNumericUserId uid = false →
       handler { method := "GET", userId := some uid } c now up =
         ({ status := 400, body := .errInvalid }, c)) ∧
    (∀ uid, isNumericUserId uid = true →
       (handler { method := "GET", userId := some uid } c now up).1.status ≠ 400) ∧
    isNumericUserId "abc" = false := by
  refine ⟨rfl, rfl, ?_, ?_, by decide⟩
  · intro uid hne hnum
    have hne2 : (uid == "") = false := beq_eq_false_iff_ne.mpr hne
    simp [handler, hne2, hnum]
  · intro uid hnum
    cases hget : cacheGet c ("visits_" ++ uid) with
    | some e =>
      by_cases hfresh : now - e.timestamp < CACHE_DURATION
      · rw [handler_valid_hit uid c now up e hnum hget hfresh]; simp
      · rw [handler_valid_stale uid c now up e hnum hget hfresh]
        cases haggr : aggregate up now <;> simp [runAggregation, haggr]
    | none =>
      rw [handler_valid_miss uid c now up hnum hget]
      cases haggr : aggregate up now <;> simp [runAggregation, haggr]

/-- Witness for C5 at the concrete invalid `userId` of the spec example. -/
theorem C5_validation_witness :
    handler { method := "GET", userId := some "abc" } [] 0 upEx =
      ({ status := 400, body := Body.errInvalid }, []) :=
  (C5_validation [] 0 upEx).2.2.1 "abc" (by decide) (by decide)

/-- `String.prototype.includes` agrees with contiguous-sublist occurrence. -/
theorem jsIncludes_iff (s sub : String) :
    jsIncludes s sub = true ↔ ContainsSub s.data sub.data := by
  unfold jsIncludes ContainsSub
  rw [List.any_eq_true]
  constructor
  · rintro ⟨i, hi, hpre⟩
    rw [List.isPrefixOf_iff_prefix] at hpre
    obtain ⟨t, ht⟩ := hpre
    refine ⟨s.data.take i, t, ?_⟩
    calc s.data = s.data.take i ++ s.data.drop i := (List.take_append_drop i s.data).symm
    _ = s.data.take i ++ (sub.data ++ t) := by rw [ht]
    _ = s.data.take i ++ sub.data ++ t := by rw [List.append_assoc]
  · rintro ⟨l, r, hl⟩
    refine ⟨l.length, ?_, ?_⟩
    · rw [List.mem_range, hl]
      simp
      omega
    · rw [List.isPrefixOf_iff_prefix, hl, List.append_assoc, List.drop_left]
      exact ⟨r, rfl⟩

/-- `isDeveloperRole` is exactly: the lowercased name contains some entry of
the fixed vocabulary as a contiguous substring. -/
theorem isDeveloperRole_iff (s : String) :
    isDeveloperRole s = true ↔
      ∃ role ∈ DEVELOPER_ROLES, ContainsSub (jsToLower s).data role.data := by
  unfold isDeveloperRole
  rw [List.any_eq_true]
  constructor <;> rintro ⟨role, hmem, h⟩
  · exact ⟨role, hmem, (jsIncludes_iff _ _).mp h⟩
  · exact ⟨role, hmem, (jsIncludes_iff _ _).mpr h⟩

/-- C6: a role is developer-tier iff its lowercased name contains one of the
fixed vocabulary entries as a substring; the spec's concrete examples
classify as stated; and a non-matching membership triggers no group-games
fetch (the loop neither consults the upstream nor records a call for it). -/
theorem C6_developer_role_classification :
    (∀ s, isDeveloperRole s = true ↔
       ∃ role ∈ DEVELOPER_ROLES, ContainsSub (jsToLower s).data role.data) ∧
    isDeveloperRole "Co-Owner" = true ∧
    isDeveloperRole "LEAD SCRIPTER" = true ∧
    isDeveloperRole "Moderator" = false ∧
    (∀ up acc t m r, m.role = some r → isDeveloperRole r.name = false →
       groupLoopT up acc t [m] = (.ok acc, t)) := by
  refine ⟨isDeveloperRole_iff, by decide, by decide, by decide, ?_⟩
  intro up acc t m r hr hd
  simp [groupLoopT, hr, hd]

/-- Witness for C6: the loop skips a `"Moderator"` membership, attempting no
call. -/
theorem C6_developer_role_classification_witness :
    groupLoopT upEx (0, 0) [] [mMod] = (.ok (0, 0), []) :=
  C6_developer_role_classification.2.2.2.2 upEx (0, 0) [] mMod { name := "Moderator" }
    rfl (by decide)

/-- C7: a game entry with an absent visit counter contributes zero visits
but still counts as one game, so the game counts equal the number of entries
returned; and a present counter contributes its value. -/
theorem C7_missing_counter_as_zero :
    (∀ games v c, processGames games v c = (v + sumVisits games, c + games.length)) ∧
    (∀ g : Game, g.placeVisits = none → jsOrZero g.placeVisits = 0) ∧
    (∀ (g : Game) (v : Nat), g.placeVisits = some v → jsOrZero g.placeVisits = v) ∧
    (∀ up now s page games,
       up.userGames = .ok page → page.data = some games → aggregate up now = .ok s →
       s.breakdown.personalVisits = sumVisits games ∧
       s.breakdown.personalGames = games.length) := by
  refine ⟨fun games => processGames_eq games, ?_, ?_, ?_⟩
  · intro g h; simp [jsOrZero, h]
  · intro g v h; simp [jsOrZero, h]
  · intro up now s page games hug hpd hagg
    obtain ⟨-, hs⟩ := aggregate_ok_elim up now s hagg
    subst hs
    have hp : personalOf up = (sumVisits games, games.length) := by
      simp [personalOf, hug, hpd, processGames_eq]
    simp [mkSummary, hp]

/-- Witness for C7 at a concrete upstream behaviour. -/
theorem C7_missing_counter_as_zero_witness :
    sEx.breakdown.personalVisits = sumVisits gamesP ∧
      sEx.breakdown.personalGames = gamesP.length :=
  C7_missing_counter_as_zero.2.2.2 upEx 0 sEx pageP gamesP rfl rfl rfl

/-- On well-formed memberships, the group-games calls of a listing are one
per developer-tier membership. -/
theorem length_filterMap_memCall (ms : List Membership)
    (h : ∀ m ∈ ms, memOK m = true) :
    (ms.filterMap memCall).length = devCount ms := by
  induction ms with
  | nil => rfl
  | cons m rest ih =>
    have hm := h m (by simp)
    have hrest : ∀ x ∈ rest, memOK x = true := fun x hx => h x (List.mem_cons_of_mem m hx)
    cases hr : m.role with
    | none => simp [memOK, hr] at hm
    | some r =>
      cases hd : isDeveloperRole r.name with
      | false =>
        have h1 : (m :: rest).filterMap memCall = rest.filterMap memCall := by
          simp [List.filterMap_cons, memCall, hr, hd]
        have h2 : devCount (m :: rest) = devCount rest := by
          simp [devCount, List.filter_cons, hr, hd]
        rw [h1, h2, ih hrest]
      | true =>
        cases hg : m.group with
        | none => simp [memOK, hr, hd, hg] at hm
        | some g =>
          have h1 : (m :: rest).filterMap memCall =
              Call.groupGames g.id :: rest.filterMap memCall := by
            simp [List.filterMap_cons, memCall, hr, hd, hg]
          have h2 : devCount (m :: rest) = devCount rest + 1 := by
            simp [devCount, List.filter_cons, hr, hd]
          rw [h1, h2, List.length_cons, ih hrest]

/-- A membership only ever gives rise to a group-games call. -/
theorem memCall_shape (m : Membership) (cl : Call) (h : memCall m = some cl) :
    ∃ gid, cl = Call.groupGames gid := by
  obtain ⟨role, group⟩ := m
  cases role with
  | none => simp [memCall] at h
  | some r =>
    cases hd : isDeveloperRole r.name with
    | false => simp [memCall, hd] at h
    | true =>
      simp only [memCall, hd, if_true] at h
      cases group with
      | none => simp at h
      | some g =>
        simp at h
        exact ⟨g.id, h.symm⟩

/-- C8: within one (successful) aggregation run the instrumented trace shows
exactly one personal-games call, exactly one group-roles call, and one
group-games call per developer-tier membership — `2 + G` calls in all, each
target attempted exactly once and never retried. -/
theorem C8_upstream_calls_once (up : Upstream) (now : Nat) (s : Summary)
    (h : aggregate up now = .ok s) :
    (aggregateT up now).1 = aggregate up now ∧
    (aggregateT up now).2 =
      Call.personalGames :: Call.groupRoles :: (groupsOf up).filterMap memCall ∧
    (∀ cl ∈ (groupsOf up).filterMap memCall, ∃ gid, cl = Call.groupGames gid) ∧
    ((aggregateT up now).2).length = 2 + devCount (groupsOf up) ∧
    ((aggregateT up now).2).countP isPersonalCall = 1 ∧
    ((aggregateT up now).2).countP isRolesCall = 1 := by
  obtain ⟨hOK, -⟩ := aggregate_ok_elim up now s h
  have hT := groupLoopT_ok up (groupsOf up) 0 0 [Call.personalGames, Call.groupRoles] hOK
  have htrace : (aggregateT up now).2 =
      Call.personalGames :: Call.groupRoles :: (groupsOf up).filterMap memCall := by
    unfold aggregateT
    rw [hT]
    rfl
  have honly : ∀ cl ∈ (groupsOf up).filterMap memCall, ∃ gid, cl = Call.groupGames gid := by
    intro cl hcl
    rcases List.mem_filterMap.mp hcl with ⟨m, hm, hmc⟩
    exact memCall_shape m cl hmc
  have hzero1 : ((groupsOf up).filterMap memCall).countP isPersonalCall = 0 := by
    rw [List.countP_eq_zero]
    intro cl hcl
    obtain ⟨gid, rfl⟩ := honly cl hcl
    simp [isPersonalCall]
  have hzero2 : ((groupsOf up).filterMap memCall).countP isRolesCall = 0 := by
    rw [List.countP_eq_zero]
    intro cl hcl
    obtain ⟨gid, rfl⟩ := honly cl hcl
    simp [isRolesCall]
  refine ⟨aggregateT_fst up now, htrace, honly, ?_, ?_, ?_⟩
  · rw [htrace]
    simp only [List.length_cons, length_filterMap_memCall (groupsOf up) hOK]
    omega
  · rw [htrace]
    simp [List.countP_cons, isPersonalCall, hzero1]
  · rw [htrace]
    simp [List.countP_cons, isRolesCall, hzero2]

/-- Witness for C8 at a concrete upstream behaviour: three calls for one
developer-tier membership. -/
theorem C8_upstream_calls_once_witness :
    ((aggregateT upEx 0).2).length = 2 + devCount (groupsOf upEx) :=
  (C8_upstream_calls_once upEx 0 sEx rfl).2.2.2.1

/-- C9: a fatal aggregation failure is answered 500 and leaves the cache
exactly as it was — nothing is stored under the requested key — so a repeat
request for the same user goes back to the aggregation path, it does not
hit a cached failure. -/
theorem C9_fatal_leaves_cache (uid : String) (c : Cache) (now : Nat) (up : Upstream)
    (msg : String) (hnum : isNumericUserId uid = true)
    (hfatal : aggregate up now = .error msg) :
    runAggregation uid ("visits_" ++ uid) c now up =
      ({ status := 500, body := .fatal msg uid }, c) ∧
    (cacheGet c ("visits_" ++ uid) = none →
       handler { method := "GET", userId := some uid } c now up =
         ({ status := 500, body := .fatal msg uid }, c) ∧
       (∀ now2 up2, handler { method := "GET", userId := some uid } c now2 up2 =
          runAggregation uid ("visits_" ++ uid) c now2 up2)) := by
  have hrun : runAggregation uid ("visits_" ++ uid) c now up =
      ({ status := 500, body := .fatal msg uid }, c) := by
    simp [runAggregation, hfatal]
  refine ⟨hrun, fun hmiss => ⟨?_, fun now2 up2 => handler_valid_miss uid c now2 up2 hnum hmiss⟩⟩
  rw [handler_valid_miss uid c now up hnum hmiss, hrun]

/-- Witness for C9 at a concrete failing upstream behaviour. -/
theorem C9_fatal_leaves_cache_witness :
    runAggregation "7" ("visits_" ++ "7") [] 0 upFatal =
      ({ status := 500, body := .fatal roleUndefinedMsg "7" }, []) :=
  (C9_fatal_leaves_cache "7" [] 0 upFatal roleUndefinedMsg (by decide) rfl).1

/-- C10: the two source file variants are behaviourally equivalent — for
every request, cache state, instant and fixed upstream behaviour they
produce the same status, body and cache. -/
theorem C10_variants_equivalent (req : Req) (c : Cache) (now : Nat) (up : Upstream) :
    handlerGetVisits req c now up = handler req c now up := by
  unfold handlerGetVisits handler runAggregationGV runAggregation resJson
  rfl

end RobloxVisits
